import Mathlib

/-!
Verification development for the annotation-resolution and protocol-caching
engine of `typic/serde/resolver.py` (class `Resolver`).

The Python code is shallowly embedded as follows.

Type descriptions are modelled by the inductive `TypeDesc`, covering the
fragment of descriptions the resolver claims are about: standard-library
primitive types, PEP-586 literal types, user-defined structured types
(referred to by name and described in a `TypeEnv`), and string forward
references.  None of these constructors is an unwrappable generic form
(`checks.should_unwrap` is false on all of them), so the unwrapping loop of
`Resolver.annotation` (resolver.py lines 396-412) runs zero iterations on this
fragment and is not reproduced; the quantities it would update
(`is_optional`, `is_strict`, `is_static`, `is_literal`) are computed exactly
as on entry to the loop.  Likewise `util.resolve_supertype` is the identity
on the fragment (no NewType supertypes are modelled) and `util.origin` is the
identity (no parameterised generic heads are modelled).

Mutable resolver state (`self.__stack`, `self.__cache`, and the three
`lru_cache` memoisation tables on `resolve`, `_resolve_from_annotation` and
`_get_configuration`) is threaded explicitly through every function as a
`ResolverState`.  Each stateful function returns its result together with the
updated state; a Python exception is an `Except.error` result, returned with
whatever state had been mutated up to the raise (Python exceptions do not
roll back side effects).  `lru_cache` caches only successful returns, which
the model reproduces by inserting into the memo table only on the success
path.  Recursion through the type environment is bounded by an explicit
`fuel` parameter; every recursive call decreases it, and running out of fuel
is the distinguished error `Err.outOfFuel` (the Python code can only recurse
while meeting new types, so any concrete resolution succeeds for a large
enough fuel).

Object identity of built `SerdeProtocol` instances is modelled by a
`buildId`: each protocol constructed by `_resolve_from_annotation` receives
the current value of a monotone build counter, so two protocols are
"identity-equal" exactly when they carry the same `buildId`, and the counter
measures how often protocol-building work was performed.

The deserializer/serializer/constraint factories (`self.des`, `self.ser`,
`constr.get_constraints`) are external collaborators in the spec; the model
records only that they were invoked (the `hasDes`/`hasSer` fields of a built
protocol) since no claim depends on their output.
-/

/-- Values that may appear as arguments of a `Literal` type.  The
constructors other than `float` are exactly the kinds admitted by
`Resolver.LITERALS = (int, bytes, str, bool, Enum, type(None))`
(resolver.py line 63); `float` is a representative illegal kind
(a float value `num / 10 ^ den`). -/
inductive LitVal where
  | int (n : Int)
  | bytes (s : String)
  | str (s : String)
  | bool (b : Bool)
  | enumMember (s : String)
  | none
  | float (num : Int) (den : Nat)
  deriving DecidableEq, Repr

/-- Result of `isinstance(a, Resolver.LITERALS)` (resolver.py line 417)
on a modelled literal argument. -/
def legalLiteral : LitVal → Bool
  | .float _ _ => false
  | _ => true

/-- The modelled fragment of raw type descriptions handed to the resolver:
standard-library primitives (`int`, `str`, ...), `Literal[...]` types,
user-defined structured types referred to by name, and string forward
references (`typing.ForwardRef`). -/
inductive TypeDesc where
  | prim (name : String)
  | lit (args : List LitVal)
  | struct (name : String)
  | fref (name : String)
  deriving DecidableEq, Repr

/-- Default values attached to parameters and class attributes.
`empty` is the `EMPTY` sentinel, `ellipsis` is `...`, `unhashable` stands
for any default that fails `checks.ishashable`. -/
inductive Default where
  | empty
  | ellipsis
  | value (v : LitVal)
  | unhashable
  deriving DecidableEq, Repr

/-- Result of `checks.ishashable(default)` (resolver.py line 377). -/
def isHashable : Default → Bool
  | .unhashable => false
  | _ => true

/-- The slice of `inspect.Parameter` the resolver reads and compares:
name, annotation, and default (`kind` is always
`POSITIONAL_OR_KEYWORD` for parameters the resolver constructs itself,
resolver.py lines 372-378). -/
structure Param where
  name : String
  ann : Option TypeDesc
  default : Default
  deriving DecidableEq, Repr

/-- The `fields` member of `SerdeFlags`: absent (`None`), a rename
`Mapping` from internal to external names, or a plain collection of field
names to include. -/
inductive FieldsFlag where
  | noFields
  | mapping (m : List (String × String))
  | seq (l : List String)
  deriving DecidableEq, Repr

/-- Python truthiness of the `fields` flag (`if include:` at
resolver.py line 304): `None`, `{}` and `[]` are all falsy. -/
def FieldsFlag.isTruthy : FieldsFlag → Bool
  | .noFields => false
  | .mapping m => !m.isEmpty
  | .seq l => !l.isEmpty

/-- Modelled from the spec: the case-conversion policies of
`typic.common.Case` (that module is not under src/).  The spec names the
snake_case-to-camelCase conversion as the representative policy, so that is
the single policy modelled. -/
inductive CaseKind where
  | camel
  deriving DecidableEq, Repr

/-- Modelled from the spec: snake_case to camelCase on the character list —
each underscore is dropped and the following character is upper-cased. -/
def camelChars : List Char → List Char
  | [] => []
  | '_' :: c :: rest => c.toUpper :: camelChars rest
  | '_' :: [] => []
  | c :: rest => c :: camelChars rest

/-- Modelled from the spec: the snake_case-to-camelCase transformer
(`Case(flags.case).transformer`, resolver.py lines 310-312; `typic.common.Case`
itself is not under src/). -/
def camelize (s : String) : String := String.mk (camelChars s.toList)

/-- Application of `case.transformer` for a given policy. -/
def applyCase : CaseKind → String → String
  | .camel, s => camelize s

/-- Entries of the `omit` flag: either a type (an entry for which
`checks._type_check(o)` holds, resolver.py line 318) or a plain value. -/
inductive OmitEntry where
  | type (t : TypeDesc)
  | value (v : LitVal)
  deriving DecidableEq, Repr

/-- The slice of `typic.serde.common.SerdeFlags` the resolver reads:
`fields` (renames / include), `exclude`, `case`, `omit` and
`signature_only`.  (`case` and `omit` are Lean keywords, hence the trailing
underscores.) -/
structure SerdeFlags where
  fields : FieldsFlag
  exclude : List String
  case_ : Option CaseKind
  omit_ : List OmitEntry
  signature_only : Bool
  deriving DecidableEq, Repr

/-- The default `SerdeFlags()` (all projections off). -/
def defaultFlags : SerdeFlags :=
  { fields := .noFields, exclude := [], case_ := none, omit_ := [],
    signature_only := false }

/-- The flags passed to nested field canonicalisation:
`dataclasses.replace(flags, fields=\x7b\x7d)` (resolver.py line 292) — only the
`fields` member is reset (to an empty mapping); all other members are
passed through unchanged. -/
def nestedFieldFlags (flags : SerdeFlags) : SerdeFlags :=
  { flags with fields := .mapping [] }

/-- Reflection data for one user-defined structured type, as the external
reflection utilities report it: `hints` is `util.cached_type_hints(origin)`
paired with the class-attribute default `getattr(origin, name, EMPTY)`
(resolver.py lines 288-293), `params` is the key set of
`util.safe_get_params(origin)`, and `serdeFlags` is the
`SERDE_FLAGS_ATTR` class attribute when the class carries one. -/
structure StructInfo where
  hints : List (String × TypeDesc × Default)
  params : List String
  serdeFlags : Option SerdeFlags
  deriving DecidableEq, Repr

/-- The universe of user-defined structured types, by name. -/
def TypeEnv := List (String × StructInfo)

/-- First-match association-list lookup (the model of Python `dict`
lookup and `dict.get`); keys are unique in every dict the model builds. -/
def alookup {α β : Type} [DecidableEq α] (k : α) : List (α × β) → Option β
  | [] => none
  | (k1, v) :: rest => if k1 = k then some v else alookup k rest

/-- Python `d[k] = v` on a dict modelled as an association list: an existing
binding is overwritten in place, a new key is appended (insertion order). -/
def dictInsert {α β : Type} [DecidableEq α] (d : List (α × β)) (k : α) (v : β) :
    List (α × β) :=
  if (alookup k d).isSome then
    d.map (fun p => if p.1 = k then (k, v) else p)
  else d ++ [(k, v)]

/-- Python `d.update(u)` on dicts modelled as association lists. -/
def dictUpdate {α β : Type} [DecidableEq α] (d u : List (α × β)) : List (α × β) :=
  u.foldl (fun acc p => dictInsert acc p.1 p.2) d

/-- The dict comprehension at resolver.py line 337 inverting the output
field map, with Python last-write-wins semantics on duplicate values. -/
def invertMap (fo : List (String × String)) : List (String × String) :=
  fo.foldl (fun acc p => dictInsert acc p.2 p.1) []

/-- Lookup in the type environment. -/
def envLookup (env : TypeEnv) (n : String) : Option StructInfo :=
  alookup n env

/-- Result of `getattr(t, SERDE_FLAGS_ATTR, <missing>)` on a type
description (resolver.py lines 280 and 369-371): only structured types can
carry the class-attribute flag block. -/
def serdeFlagsAttr (env : TypeEnv) : TypeDesc → Option SerdeFlags
  | .struct n =>
    match envLookup env n with
    | some info => info.serdeFlags
    | Option.none => none
  | _ => none

/-- Result of `util.safe_get_params(origin)` key set: a structured type's
constructor parameters, empty for builtins and other descriptions. -/
def envParams (env : TypeEnv) : TypeDesc → List String
  | .struct n =>
    match envLookup env n with
    | some info => info.params
    | Option.none => []
  | _ => []

/-- Result of `util.cached_type_hints(origin)` together with the
class-attribute defaults: the named fields of a structured type, empty for
builtins and other descriptions. -/
def envHints (env : TypeEnv) : TypeDesc → List (String × TypeDesc × Default)
  | .struct n =>
    match envLookup env n with
    | some info => info.hints
    | Option.none => []
  | _ => []

/-- Predicate `checks.isliteral(use)` on the fragment. -/
def TypeDesc.isLiteralT : TypeDesc → Bool
  | .lit _ => true
  | _ => false

/-- The argument list `util.get_args(use)` of a literal type. -/
def litArgs : TypeDesc → List LitVal
  | .lit args => args
  | _ => []

/-- Predicate `checks.isstdlibtype(use)` on the fragment: only the
primitive constructor models a standard-library type (resolver.py line 460);
literal types, structured types and forward references are not stdlib. -/
def TypeDesc.isStdlib : TypeDesc → Bool
  | .prim _ => true
  | _ => false

/-- Function `util.origin` on the fragment: with no parameterised generic
heads modelled, it is the identity. -/
def originOf (t : TypeDesc) : TypeDesc := t

/-- Membership of `util.origin(use)` in `SerFactory._DYNAMIC`
(resolver.py lines 393 and 411): the dynamic forms (`Union`, `Callable`,
unparameterised generics, ...) are not representable in the fragment, so
this is always false and `is_static` is always true. -/
def dynamicOrigin (_ : TypeDesc) : Bool := false

/-- Predicate `checks.isoptionaltype(non_super)` on the fragment:
`Optional`/`Union` forms are not representable, so this is false. -/
def isOptionalType (_ : TypeDesc) : Bool := false

/-- Python `set.add` on the in-flight stack modelled as a duplicate-free
list. -/
def stackAdd (u : TypeDesc) (st : List TypeDesc) : List TypeDesc :=
  if u ∈ st then st else u :: st

mutual
/-- The canonical annotation (`typic.serde.common.Annotation`) together with
its delayed placeholders `DelayedAnnotation` and `ForwardDelayedAnnotation`,
mirroring the union `AnnotationT` of the source.  The `resolver`, `module`
and `frame` members of the Python dataclasses are process context, not data
the resolver branches on, and are not modelled; all remaining members are.
`SerdeConfig.fields` holds the recursively canonicalised field annotations,
which is why the two types are mutually inductive. -/
inductive AnnotationT where
  | anno (resolved origin un_resolved : TypeDesc) (parameter : Param)
      (optional strict static : Bool) (serde : SerdeConfig) : AnnotationT
  | delayed (type : TypeDesc) (nm : Option String) (parameter : Param)
      (is_optional is_strict : Bool) (flags : SerdeFlags) (default : Default) :
      AnnotationT
  | forwardDelayed (ref : String) (nm : Option String) (parameter : Param)
      (is_optional is_strict : Bool) (flags : SerdeFlags) (default : Default) :
      AnnotationT

/-- The resolved field-mapping artifact `typic.serde.common.SerdeConfig`:
flags, the per-field annotations, the output and input name maps, the field
accessor keys (`attrgetter` targets, modelled by their names), and the
value-based omissions. -/
inductive SerdeConfig where
  | mk (flags : SerdeFlags) (fields : List (String × AnnotationT))
      (fields_out fields_in : List (String × String))
      (fields_getters : List String) (omit_values : List LitVal) : SerdeConfig
end

/-- Projection: the flags of a `SerdeConfig`. -/
def SerdeConfig.flagsOf : SerdeConfig → SerdeFlags
  | .mk fl _ _ _ _ _ => fl

/-- Projection: the per-field annotations of a `SerdeConfig`. -/
def SerdeConfig.fieldsOf : SerdeConfig → List (String × AnnotationT)
  | .mk _ fs _ _ _ _ => fs

/-- Projection: the output name map of a `SerdeConfig`. -/
def SerdeConfig.fieldsOut : SerdeConfig → List (String × String)
  | .mk _ _ fo _ _ _ => fo

/-- Projection: the input name map of a `SerdeConfig`. -/
def SerdeConfig.fieldsIn : SerdeConfig → List (String × String)
  | .mk _ _ _ fi _ _ => fi

/-- Projection: the value-based omissions of a `SerdeConfig`. -/
def SerdeConfig.omitValues : SerdeConfig → List LitVal
  | .mk _ _ _ _ _ ov => ov

/-- The empty `SerdeConfig(flags)` built for literal and non-static types
(resolver.py line 465). -/
def emptySerdeConfig (flags : SerdeFlags) : SerdeConfig :=
  .mk flags [] [] [] [] []

mutual
/-- Structural equality on annotations, standing in for the Python
dataclass `__eq__` used when annotations serve as dict keys. -/
def annoBeq : AnnotationT → AnnotationT → Bool
  | .anno r1 o1 u1 p1 op1 s1 st1 c1, .anno r2 o2 u2 p2 op2 s2 st2 c2 =>
    r1 == r2 && o1 == o2 && u1 == u2 && p1 == p2 && op1 == op2 && s1 == s2
      && st1 == st2 && cfgBeq c1 c2
  | .delayed t1 n1 p1 o1 s1 f1 d1, .delayed t2 n2 p2 o2 s2 f2 d2 =>
    t1 == t2 && n1 == n2 && p1 == p2 && o1 == o2 && s1 == s2 && f1 == f2 && d1 == d2
  | .forwardDelayed t1 n1 p1 o1 s1 f1 d1, .forwardDelayed t2 n2 p2 o2 s2 f2 d2 =>
    t1 == t2 && n1 == n2 && p1 == p2 && o1 == o2 && s1 == s2 && f1 == f2 && d1 == d2
  | _, _ => false

/-- Structural equality on field configurations. -/
def cfgBeq : SerdeConfig → SerdeConfig → Bool
  | .mk f1 fs1 fo1 fi1 g1 ov1, .mk f2 fs2 fo2 fi2 g2 ov2 =>
    f1 == f2 && cfgFieldsBeq fs1 fs2 && fo1 == fo2 && fi1 == fi2 && g1 == g2
      && ov1 == ov2

/-- Structural equality on field-annotation maps. -/
def cfgFieldsBeq : List (String × AnnotationT) → List (String × AnnotationT) → Bool
  | [], [] => true
  | (n1, a1) :: t1, (n2, a2) :: t2 => n1 == n2 && annoBeq a1 a2 && cfgFieldsBeq t1 t2
  | _, _ => false
end

/-- Association-list lookup keyed by an explicit boolean equality, for dicts
whose keys are annotations. -/
def blookup {α β : Type} (beq : α → α → Bool) (k : α) : List (α × β) → Option β
  | [] => none
  | (k1, v) :: rest => if beq k1 k then some v else blookup beq k rest

/-- Dict insertion keyed by an explicit boolean equality. -/
def binsert {α β : Type} (beq : α → α → Bool) (d : List (α × β)) (k : α) (v : β) :
    List (α × β) :=
  if (blookup beq k d).isSome then
    d.map (fun p => if beq p.1 k then (k, v) else p)
  else d ++ [(k, v)]

/-- The protocol bundle returned by the resolver: either a concrete
`SerdeProtocol` (its deserializer/serializer/constraints are external
collaborators; the model records whether the des/ser factories were invoked
and an identity stamp `buildId`), or a `DelayedSerdeProtocol` wrapping a
delayed annotation (resolver.py line 492). -/
inductive SerdeProtocolT where
  | proto ( annotation : AnnotationT) (hasDes hasSer : Bool) (buildId : Nat)
  | delayedProto ( annotation : AnnotationT)

/-- Equality on protocols as used nowhere by the code (protocols are cache
values, never keys); provided for completeness of the model. -/
def protoBeq : SerdeProtocolT → SerdeProtocolT → Bool
  | .proto a1 d1 s1 b1, .proto a2 d2 s2 b2 =>
    annoBeq a1 a2 && d1 == d2 && s1 == s2 && b1 == b2
  | .delayedProto a1, .delayedProto a2 => annoBeq a1 a2
  | _, _ => false

/-- Errors a resolution can raise: the PEP-586 illegal-literal `TypeError`
(carrying the full argument list, as the message at resolver.py lines
418-423 does), the `KeyError` of `fields[name]` at resolver.py line 325, and
exhaustion of the recursion fuel of the model. -/
inductive Err where
  | typeError (args : List LitVal)
  | keyError (nm : String)
  | outOfFuel
  deriving DecidableEq, Repr

/-- Key of the `lru_cache` on `Resolver.resolve`: the full argument list of
a call (resolver.py lines 519-532). -/
structure ResolveKey where
  annotation : TypeDesc
  flags : Option SerdeFlags
  nm : Option String
  parameter : Option Param
  is_optional : Option Bool
  is_strict : Option Bool
  ns : Option TypeDesc
  des : Bool
  ser : Bool
  deriving DecidableEq, Repr

/-- Key of the `lru_cache` on `Resolver._resolve_from_annotation`
(resolver.py lines 481-488). -/
structure RfaKey where
  anno : AnnotationT
  des : Bool
  ser : Bool
  ns : Option TypeDesc

/-- Equality on `_resolve_from_annotation` cache keys. -/
def rfaKeyBeq (k1 k2 : RfaKey) : Bool :=
  annoBeq k1.anno k2.anno && k1.des == k2.des && k1.ser == k2.ser && k1.ns == k2.ns

/-- The mutable state owned by one `Resolver` instance: the in-flight
resolution stack `self.__stack`, the protocol cache `self.__cache`, the three
`lru_cache` memo tables, and the build counter that stamps protocol
identities. -/
structure ResolverState where
  stack : List TypeDesc
  cache : List (AnnotationT × SerdeProtocolT)
  rfaLru : List (RfaKey × SerdeProtocolT)
  resolveLru : List (ResolveKey × SerdeProtocolT)
  gcLru : List ((TypeDesc × SerdeFlags) × SerdeConfig)
  buildCount : Nat

/-- The state of a resolver with empty caches and an empty stack (the state
of a fresh `Resolver` with respect to every type its constructor warm-up did
not touch). -/
def initState : ResolverState :=
  { stack := [], cache := [], rfaLru := [], resolveLru := [], gcLru := [],
    buildCount := 0 }

/-- The type entries of an `omit` flag
(`\x7bo for o in omit if checks._type_check(o) or o is NotImplemented\x7d`,
resolver.py lines 317-319). -/
def omitTypeEntries (omits : List OmitEntry) : List TypeDesc :=
  omits.filterMap fun o => match o with
    | .type t => some t
    | .value _ => none

/-- The value entries of an `omit` flag
(`(*(o for o in omit if o not in type_omissions),)`, resolver.py line 321). -/
def omitValueEntries (omits : List OmitEntry) : List LitVal :=
  omits.filterMap fun o => match o with
    | .value v => some v
    | .type _ => none

/-- Function `util.get_name` on a type description (declared outside src/;
it returns the bare name of a type or forward reference). -/
def typeGetName : TypeDesc → String
  | .prim n => n
  | .struct n => n
  | .fref n => n
  | .lit _ => "Literal"

/-- Function `util.get_name` applied to a default value (resolver.py line
329); defaults are values, not types, so the name can never coincide with a
modelled type name — the tag below keeps that disjointness explicit. -/
def defaultGetName : Default → String
  | .empty => "value EMPTY"
  | .ellipsis => "value Ellipsis"
  | .unhashable => "value unhashable"
  | .value _ => "value literal"

/-- One step of the omission filter (resolver.py lines 324-334): decide
whether the field named `nm` survives type-based omission.  `fields[name]`
raises `KeyError` when the output map contains a name with no annotation.
For a `ForwardDelayedAnnotation` the comparison is by name against the type
omissions; otherwise `\x7banno.origin, default\x7d` is intersected with the type
omissions (a modelled default is a value, never a type, so only the origin
can match). -/
def omitKeep (fields : List (String × AnnotationT)) (typeOm : List TypeDesc)
    (typeNameOm : List String) (nm : String) : Except Err Bool :=
  match alookup nm fields with
  | Option.none => .error (.keyError nm)
  | some (.forwardDelayed ref _ p _ _ _ _) =>
    .ok (!(typeNameOm.contains ref || typeNameOm.contains (defaultGetName p.default)))
  | some (.anno _ aOrigin _ _ _ _ _ _) =>
    .ok (!(typeOm.contains aOrigin))
  | some (.delayed t _ _ _ _ _ _) =>
    .ok (!(typeOm.contains t))

/-- The loop at resolver.py lines 322-335 building `fields_out_final`:
keep the entries of the output map that survive type-based omission,
preserving order. -/
def omitFilterGo (fields : List (String × AnnotationT)) (typeOm : List TypeDesc)
    (typeNameOm : List String) :
    List (String × String) → Except Err (List (String × String))
  | [] => .ok []
  | (nm, out) :: rest =>
    match omitKeep fields typeOm typeNameOm nm with
    | .error e => .error e
    | .ok keep =>
      match omitFilterGo fields typeOm typeNameOm rest with
      | .error e => .error e
      | .ok kept => .ok (if keep then (nm, out) :: kept else kept)

/-- The omission filter over the output map (resolver.py lines 316-335). -/
def omitFilter (fo : List (String × String)) (fields : List (String × AnnotationT))
    (omits : List OmitEntry) : Except Err (List (String × String)) :=
  omitFilterGo fields (omitTypeEntries omits) ((omitTypeEntries omits).map typeGetName) fo

mutual
/-- Embedding of `Resolver.annotation` (resolver.py lines 353-479) on the
modelled fragment.  Argument order follows the source signature
(`annotation, name, parameter, is_optional, is_strict, flags, default,
namespace`); `None` arguments are `Option.none`.  The unwrapping loop runs
zero iterations on the fragment (see the module docstring), so `use` and
`non_super` both equal the incoming description and the loop-updated
quantities keep their entry values. -/
def annotationFn (env : TypeEnv) (fuel : Nat) ( annotation : TypeDesc)
    (nm : Option String) (parameter0 : Option Param)
    (is_optional0 is_strict0 : Option Bool) (flags0 : Option SerdeFlags)
    (default : Default) (ns : Option TypeDesc)
    (s : ResolverState) : Except Err AnnotationT × ResolverState :=
  match fuel with
  | 0 => (.error .outOfFuel, s)
  | fuel + 1 =>
    let flags := (serdeFlagsAttr env annotation).getD (flags0.getD defaultFlags)
    let parameter := parameter0.getD
      { name := nm.getD "_", ann := some annotation,
        default := if isHashable default then default else .ellipsis }
    let non_super := annotation
    let orig := originOf annotation
    let use := non_super
    let is_optional := is_optional0.getD false || isOptionalType non_super
      || decide (parameter.default = .value .none)
      || decide (parameter.default = .ellipsis)
    let is_strict := is_strict0.getD false
    let is_static := !dynamicOrigin (originOf use)
    let is_literal := use.isLiteralT
    if is_literal && !(litArgs use).all legalLiteral then
      (.error (.typeError (litArgs use)), s)
    else
      match use with
      | .fref refName =>
        (.ok (.forwardDelayed refName nm parameter is_optional is_strict flags default), s)
      | _ =>
        if ns = some use ∨ use ∈ s.stack then
          let s1 := if use ∈ s.stack then { s with stack := s.stack.erase use } else s
          (.ok (.delayed use nm parameter is_optional is_strict flags default), s1)
        else
          let s1 := if use.isStdlib then s else { s with stack := stackAdd use s.stack }
          if is_static && !is_literal then
            match getConfiguration env fuel (originOf use) flags s1 with
            | (.error e, s2) => (.error e, s2)
            | (.ok serde, s2) =>
              (.ok (.anno use orig annotation parameter is_optional is_strict
                is_static serde), s2)
          else
            (.ok (.anno use orig annotation parameter is_optional is_strict is_static
              (emptySerdeConfig flags)), s1)

/-- Embedding of `Resolver._get_configuration` (resolver.py lines 278-351).
The `lru_cache` is keyed by the arguments `(origin, flags)` as passed — the
class-attribute override at line 281 happens inside the body, after the
cache check.  The `fields.keys() and params.keys()` set intersection of the
`signature_only` filter is modelled in hint order (Python set iteration
order is unspecified). -/
def getConfiguration (env : TypeEnv) (fuel : Nat) (origin : TypeDesc)
    (flags0 : SerdeFlags) (s : ResolverState) : Except Err SerdeConfig × ResolverState :=
  match fuel with
  | 0 => (.error .outOfFuel, s)
  | fuel + 1 =>
    match alookup (origin, flags0) s.gcLru with
    | some cfg => (.ok cfg, s)
    | Option.none =>
      let flags := (serdeFlagsAttr env origin).getD flags0
      let params := envParams env origin
      match configFields env fuel (envHints env origin) origin flags s with
      | (.error e, s1) => (.error e, s1)
      | (.ok fields0, s1) =>
        let fields := if flags.signature_only then
            fields0.filter (fun p => params.contains p.1)
          else fields0
        let seeded : List (String × String) := fields.map (fun p => (p.1, p.1))
        let withInclude := if flags.fields.isTruthy then
            match flags.fields with
            | .mapping m => dictUpdate seeded m
            | .seq l => dictUpdate seeded (l.map fun x => (x, x))
            | .noFields => seeded
          else seeded
        let cased := match flags.case_ with
          | some c => withInclude.map (fun p => (p.1, applyCase c p.2))
          | Option.none => withInclude
        let value_omissions := omitValueEntries flags.omit_
        match (if !flags.omit_.isEmpty then omitFilter cased fields flags.omit_
               else .ok cased) with
        | .error e => (.error e, s1)
        | .ok postOmit =>
          let fields_in0 := invertMap postOmit
          let fields_in := if !params.isEmpty then
              fields_in0.filter (fun p => params.contains p.2)
            else fields_in0
          let fields_out := if !flags.exclude.isEmpty then
              postOmit.filter (fun p => !flags.exclude.contains p.1)
            else postOmit
          let fields_getters := fields.map Prod.fst
          let cfg := SerdeConfig.mk flags fields fields_out fields_in
            fields_getters value_omissions
          (.ok cfg, { s1 with gcLru := dictInsert s1.gcLru (origin, flags0) cfg })

/-- The field loop of `_get_configuration` (resolver.py lines 289-295):
canonicalise each hinted field with `name=None`, `parameter=None`, the
nested flags `dataclasses.replace(flags, fields=\x7b\x7d)`, the class-attribute
default, and the enclosing type as namespace. -/
def configFields (env : TypeEnv) (fuel : Nat)
    (hints : List (String × TypeDesc × Default)) (origin : TypeDesc)
    (flags : SerdeFlags) (s : ResolverState) :
    Except Err (List (String × AnnotationT)) × ResolverState :=
  match fuel with
  | 0 => (.error .outOfFuel, s)
  | fuel + 1 =>
    match hints with
    | [] => (.ok [], s)
    | (fname, ftype, fdefault) :: rest =>
      match annotationFn env fuel ftype none none none none
          (some (nestedFieldFlags flags)) fdefault (some origin) s with
      | (.error e, s1) => (.error e, s1)
      | (.ok a, s1) =>
        match configFields env fuel rest origin flags s1 with
        | (.error e, s2) => (.error e, s2)
        | (.ok as, s2) => (.ok ((fname, a) :: as), s2)
end

/-- Embedding of `Resolver._resolve_from_annotation` (resolver.py lines
481-517).  The body never raises on the fragment (the factories are external
and total), so the result type is plain.  On every body run the `lru_cache`
records the returned protocol under the call key; the body itself first
consults `self.__cache`, returns a `DelayedSerdeProtocol` for delayed
annotations, and otherwise builds a fresh protocol (stamping it with the
build counter) and stores it in `self.__cache`.  The `Callable`-origin
special case at line 495 has no representative in the fragment. -/
def resolveFromAnnotationFn (anno : AnnotationT) (des ser : Bool)
    (ns : Option TypeDesc) (s : ResolverState) : SerdeProtocolT × ResolverState :=
  let key : RfaKey := ⟨anno, des, ser, ns⟩
  match blookup rfaKeyBeq key s.rfaLru with
  | some p => (p, s)
  | Option.none =>
    let built : SerdeProtocolT × ResolverState :=
      match blookup annoBeq anno s.cache with
      | some p => (p, s)
      | Option.none =>
        match anno with
        | .delayed _ _ _ _ _ _ _ => (.delayedProto anno, s)
        | .forwardDelayed _ _ _ _ _ _ _ => (.delayedProto anno, s)
        | .anno _ _ _ _ _ _ _ _ =>
          let p := SerdeProtocolT.proto anno des ser s.buildCount
          (p, { s with buildCount := s.buildCount + 1,
                       cache := binsert annoBeq s.cache anno p })
    (built.1, { built.2 with rfaLru := binsert rfaKeyBeq built.2.rfaLru key built.1 })

/-- Embedding of `Resolver.resolve` (resolver.py lines 519-579).  The
`lru_cache` is keyed by the full argument list; on a miss the body
canonicalises (`self.annotation`, with no `default` argument, hence
`EMPTY`), resolves the protocol, clears the in-flight stack, and returns —
the memo table records the result only on this normal return.  There is no
try/finally: when `self.annotation` raises, the clear at line 578 never
runs. -/
def resolveFn (env : TypeEnv) (fuel : Nat) ( annotation : TypeDesc)
    (flags : Option SerdeFlags) (nm : Option String) (parameter : Option Param)
    (is_optional is_strict : Option Bool) (ns : Option TypeDesc)
    (des ser : Bool) (s : ResolverState) : Except Err SerdeProtocolT × ResolverState :=
  let key : ResolveKey :=
    ⟨ annotation, flags, nm, parameter, is_optional, is_strict, ns, des, ser⟩
  match alookup key s.resolveLru with
  | some p => (.ok p, s)
  | Option.none =>
    match annotationFn env fuel annotation nm parameter is_optional is_strict
        flags .empty ns s with
    | (.error e, s1) => (.error e, s1)
    | (.ok anno, s1) =>
      let r := resolveFromAnnotationFn anno des ser ns s1
      let s3 := { r.2 with stack := [] }
      (.ok r.1, { s3 with resolveLru := dictInsert s3.resolveLru key r.1 })

/-- The abstract result of `resolved.transmute(value)`: protocol application
is an external collaborator, so the model only records which protocol was
applied to which value. -/
structure TransmuteResult (α : Type) where
  proto : SerdeProtocolT
  input : α

/-- Embedding of `Resolver.transmute` (resolver.py lines 83-103): resolve
the annotation with default arguments, then apply the resolved protocol to
the value. -/
def transmuteFn {α : Type} (env : TypeEnv) (fuel : Nat) ( annotation : TypeDesc)
    (value : α) (s : ResolverState) :
    Except Err (TransmuteResult α) × ResolverState :=
  match resolveFn env fuel annotation none none none none none none true true s with
  | (.error e, s1) => (.error e, s1)
  | (.ok p, s1) => (.ok ⟨p, value⟩, s1)

/-- The deprecation warning emitted by `Resolver.coerce_value`
(resolver.py lines 170-175). -/
def coerceDeprecationWarning : String :=
  "typic.coerce has been deprecated and will be removed in a future version. Use typic.transmute instead."

/-- Embedding of `Resolver.coerce_value` (resolver.py lines 167-176): emit
the deprecation warning, then delegate to `transmute` with the argument
order swapped.  Warnings go to the process-wide warning system, modelled as
the first component of the result. -/
def coerceValueFn {α : Type} (env : TypeEnv) (fuel : Nat) (value : α)
    ( annotation : TypeDesc) (s : ResolverState) :
    List String × (Except Err (TransmuteResult α) × ResolverState) :=
  ([coerceDeprecationWarning], transmuteFn env fuel annotation value s)

/-- Observable: whether a resolution result is an error (a raised
exception). -/
def isErr {α : Type} : Except Err α → Bool
  | .error _ => true
  | .ok _ => false

/-- Observable: whether a resolution result is a successfully returned
`DelayedSerdeProtocol`. -/
def isOkDelayedProto : Except Err SerdeProtocolT → Bool
  | .ok (.delayedProto _) => true
  | _ => false

/-- A placeholder protocol used as the fallback of `protoOfResult`; it never
arises from the resolver itself. -/
def fallbackProto : SerdeProtocolT :=
  .delayedProto (.delayed (.prim "fallback") none
    { name := "_", ann := none, default := .empty } false false defaultFlags .empty)

/-- Extract the protocol of a successful resolution (fallback on error). -/
def protoOfResult : Except Err SerdeProtocolT → SerdeProtocolT
  | .ok p => p
  | .error _ => fallbackProto

/-- Extract the error of a failed resolution (fallback on success). -/
def errOfResult {α : Type} : Except Err α → Err
  | .error e => e
  | .ok _ => .outOfFuel

/-- Extract the configuration of a successful `_get_configuration` call
(fallback on error). -/
def cfgOfResult : Except Err SerdeConfig → SerdeConfig
  | .ok c => c
  | .error _ => emptySerdeConfig defaultFlags

/-- The components of the resolver state that record resolution RESULTS:
the `resolve` memo table, the `_resolve_from_annotation` memo table, the
protocol cache, and the build counter.  (The in-flight stack and the
`_get_configuration` memo table are excluded on purpose.) -/
def outerView (s : ResolverState) :
    List (ResolveKey × SerdeProtocolT) × List (RfaKey × SerdeProtocolT)
      × List (AnnotationT × SerdeProtocolT) × Nat :=
  (s.resolveLru, s.rfaLru, s.cache, s.buildCount)

/-- The `fields_out` of the configuration stored in the
`_get_configuration` memo table under a given key, if any. -/
def gcStoredFieldsOut (k : TypeDesc × SerdeFlags) (st : ResolverState) :
    List (String × String) :=
  match alookup k st.gcLru with
  | some cfg => cfg.fieldsOut
  | Option.none => [("MISSING", "MISSING")]

/-- A structured type `S` whose single field `x` is annotated with the
illegal literal type `Literal[0.5]` (a float argument). -/
def envBad : TypeEnv := [("S", ⟨[("x", .lit [.float 1 2], .empty)], ["x"], none⟩)]

/-- The record of the spec's field-projection example: fields `id` and
`user_name`, both constructor parameters, no class-attribute flags. -/
def envU : TypeEnv :=
  [("U", ⟨[("id", .prim "int", .empty), ("user_name", .prim "str", .empty)],
    ["id", "user_name"], none⟩)]

/-- Flags of the spec's field-projection example: camelCase conversion and
an explicit exclude of `id`. -/
def flagsC9 : SerdeFlags :=
  { fields := .noFields, exclude := ["id"], case_ := some .camel, omit_ := [],
    signature_only := false }

/-- Flags with an explicit rename of `user_name` to `my_field` combined
with a camelCase conversion policy. -/
def flagsRename : SerdeFlags :=
  { fields := .mapping [("user_name", "my_field")], exclude := [],
    case_ := some .camel, omit_ := [], signature_only := false }

/-- Flags whose include list names a non-field (`extra`) and which exclude
`id`. -/
def flagsInclude : SerdeFlags :=
  { fields := .seq ["extra"], exclude := ["id"], case_ := none, omit_ := [],
    signature_only := false }

/-- A two-level structure: `Outer` has one field of type `Inner`, `Inner`
has one field `x`; neither carries class-attribute flags. -/
def envOI : TypeEnv :=
  [("Outer", ⟨[("inner", .struct "Inner", .empty)], ["inner"], none⟩),
   ("Inner", ⟨[("x", .prim "int", .empty)], ["x"], none⟩)]

/-- Flags excluding `x` — a field of the nested type `Inner`, not of
`Outer`. -/
def flagsExcl : SerdeFlags :=
  { fields := .noFields, exclude := ["x"], case_ := none, omit_ := [],
    signature_only := false }

/-- The parameter `Resolver.annotation` constructs when the caller passes
none (resolver.py lines 372-378). -/
def builtParam (nm : Option String) (t : TypeDesc) (d : Default) : Param :=
  { name := nm.getD "_", ann := some t,
    default := if isHashable d then d else .ellipsis }

/-- The `is_optional` value `Resolver.annotation` computes (resolver.py
lines 387-391). -/
def builtOptional (io : Option Bool) (t : TypeDesc) (p : Param) : Bool :=
  io.getD false || isOptionalType t || decide (p.default = .value .none)
    || decide (p.default = .ellipsis)


/-- Lookup after an in-place overwrite: when the key is present, every
binding of it has been replaced by the new value. -/
theorem alookup_map_replace {α β : Type} [DecidableEq α] (d : List (α × β))
    (k : α) (v : β) (h : (alookup k d).isSome = true) :
    alookup k (d.map (fun p => if p.1 = k then (k, v) else p)) = some v := by
  induction d with
  | nil => simp [alookup] at h
  | cons hd tl ih =>
    obtain ⟨k1, v1⟩ := hd
    rw [List.map_cons]
    by_cases hk : k1 = k
    · subst hk
      have hif : (if (k1, v1).1 = k1 then (k1, v) else (k1, v1)) = (k1, v) := if_pos rfl
      rw [hif]
      simp [alookup]
    · have hif : (if (k1, v1).1 = k then (k, v) else (k1, v1)) = (k1, v1) := by
        simp [hk]
      rw [hif]
      simp only [alookup, hk, if_false]
      apply ih
      simpa [alookup, hk] using h

/-- Lookup after an append of a fresh binding. -/
theorem alookup_append_fresh {α β : Type} [DecidableEq α] (d : List (α × β))
    (k : α) (v : β) (h : alookup k d = none) :
    alookup k (d ++ [(k, v)]) = some v := by
  induction d with
  | nil => simp [alookup]
  | cons hd tl ih =>
    obtain ⟨k1, v1⟩ := hd
    rw [List.cons_append]
    by_cases hk : k1 = k
    · rw [alookup.eq_def] at h
      simp [hk] at h
    · simp only [alookup, hk, if_false]
      apply ih
      simpa [alookup, hk] using h

/-- Lookup of the key just written by `dictInsert`. -/
theorem alookup_dictInsert_self {α β : Type} [DecidableEq α] (d : List (α × β))
    (k : α) (v : β) : alookup k (dictInsert d k v) = some v := by
  unfold dictInsert
  by_cases h : (alookup k d).isSome = true
  · rw [if_pos h]
    exact alookup_map_replace d k v h
  · rw [if_neg h]
    refine alookup_append_fresh d k v ?_
    cases hx : alookup k d with
    | none => rfl
    | some w => rw [hx] at h; simp at h

/-- Lookup through a value-only transformation of an association list. -/
theorem alookup_map_value {α β γ : Type} [DecidableEq α] (g : β → γ) (k : α)
    (l : List (α × β)) :
    alookup k (l.map (fun p => (p.1, g p.2))) = (alookup k l).map g := by
  induction l with
  | nil => rfl
  | cons hd tl ih =>
    by_cases hk : hd.1 = k
    · simp [alookup, hk]
    · simp [alookup, hk, ih]

/-- C9.  The `exclude` flag is applied last and trims the output name map
only, after the input map has been computed: on the spec's example — fields
id and user_name, snake_case-to-camelCase policy, exclude of id — the
output map is exactly user_name to userName, while the input map still
carries id (an excluded field stays settable on input). -/
theorem exclude_trims_output_only :
    (cfgOfResult (getConfiguration envU 20 (.struct "U") flagsC9 initState).1).fieldsOut
      = [("user_name", "userName")]
    ∧ (cfgOfResult (getConfiguration envU 20 (.struct "U") flagsC9 initState).1).fieldsIn
      = [("id", "id"), ("userName", "user_name")] :=
  ⟨rfl, rfl⟩

/-- C10.  `Resolver.coerce_value(value, annotation)` delegates to
`Resolver.transmute(annotation, value)`: the returned value and the state
effects are identical, and the only difference is the deprecation warning
emitted. -/
theorem coerce_value_delegates_to_transmute {α : Type} (env : TypeEnv)
    (fuel : Nat) (value : α) (t : TypeDesc) (s : ResolverState) :
    (coerceValueFn env fuel value t s).2 = transmuteFn env fuel t value s
    ∧ (coerceValueFn env fuel value t s).1 = [coerceDeprecationWarning] :=
  ⟨rfl, rfl⟩

/-- C2.  Canonicalising a literal-type description whose arguments include
a value outside the legal kinds (int, bytes, str, bool, enum member, none)
raises a `TypeError` carrying the argument values, with the resolver state
untouched — the failure happens at resolution time, before any stack or
cache mutation; a literal type all of whose arguments are legal raises no
such error (every canonicalisation path returns a result). -/
theorem literal_args_legality (env : TypeEnv) (fuel : Nat) (args : List LitVal)
    (nm : Option String) (pr : Option Param) (io istr : Option Bool)
    (fl : Option SerdeFlags) (d : Default) (ns : Option TypeDesc)
    (s : ResolverState) :
    ((∃ a ∈ args, legalLiteral a = false) →
      annotationFn env (fuel + 1) (.lit args) nm pr io istr fl d ns s
        = (.error (.typeError args), s))
    ∧ ((∀ a ∈ args, legalLiteral a = true) →
      ∃ a s1, annotationFn env (fuel + 1) (.lit args) nm pr io istr fl d ns s
        = (.ok a, s1)) := by
  constructor
  · rintro ⟨a, ha, hbad⟩
    have hall : args.all legalLiteral = false := by
      rcases hx : args.all legalLiteral with _ | _
      · rfl
      · rw [List.all_eq_true] at hx
        rw [hx a ha] at hbad
        exact absurd hbad (by simp)
    simp only [annotationFn]
    simp [TypeDesc.isLiteralT, litArgs, hall]
  · intro hall
    have hall' : args.all legalLiteral = true := List.all_eq_true.mpr hall
    simp only [annotationFn]
    simp only [TypeDesc.isLiteralT, litArgs, hall', Bool.not_true, Bool.and_false,
      Bool.false_eq_true, if_false]
    split
    · exact ⟨_, _, rfl⟩
    · exact ⟨_, _, rfl⟩

/-- Witness for C2: the literal type with the float argument 0.5 raises the
legality error and leaves the state untouched, while `Literal[1]` is
canonicalised without error. -/
theorem literal_args_legality_witness :
    annotationFn [] 5 (.lit [.float 1 2]) none none none none none .empty none initState
      = (.error (.typeError [.float 1 2]), initState)
    ∧ ∃ a s1, annotationFn [] 5 (.lit [.int 1]) none none none none none .empty none
        initState = (.ok a, s1) :=
  ⟨(literal_args_legality [] 4 [.float 1 2] none none none none none .empty none
      initState).1 ⟨.float 1 2, by decide, by decide⟩,
   (literal_args_legality [] 4 [.int 1] none none none none none .empty none
      initState).2 (by decide)⟩

/-- Counterexample to C3 as stated: resolving the structured type `S` (whose
field has an illegal literal annotation) raises, and after the raising
top-level `resolve` call the in-flight stack still holds `S` — the stack is
not cleared when `resolve` raises, because the clear at resolver.py line 578
is not in a try/finally. -/
theorem stack_not_cleared_on_error_counterexample :
    isErr (resolveFn envBad 20 (.struct "S") none none none none none none true true
      initState).1 = true
    ∧ (resolveFn envBad 20 (.struct "S") none none none none none none true true
      initState).2.stack = [TypeDesc.struct "S"] :=
  ⟨rfl, rfl⟩

/-- Counterexample to C4 as stated: after the failing `resolve` of `S`
(state `envBad`), a second `resolve` of the same description does not behave
as a fresh attempt — the fresh attempt raises the literal-legality error,
but the retry finds `S` leaked on the in-flight stack and returns a
`DelayedSerdeProtocol` instead. -/
theorem failed_retry_not_fresh_counterexample :
    isErr (resolveFn envBad 20 (.struct "S") none none none none none none true true
      initState).1 = true
    ∧ isOkDelayedProto (resolveFn envBad 20 (.struct "S") none none none none none none
      true true
      (resolveFn envBad 20 (.struct "S") none none none none none none true true
        initState).2).1 = true :=
  ⟨rfl, rfl⟩

/-- Counterexample to C5 as stated: with the explicit rename of `user_name`
to `my_field` and the camelCase policy, the output map carries `myField` —
the explicitly renamed name was further altered by the case policy, so the
rename did not win over case conversion. -/
theorem rename_altered_by_case_counterexample :
    (cfgOfResult (getConfiguration envU 20 (.struct "U") flagsRename initState).1).fieldsOut
      = [("id", "id"), ("user_name", "myField")]
    ∧ "myField" ≠ "my_field" :=
  ⟨rfl, by decide⟩

/-- Counterexample to C6 as stated: with an include list naming the
non-field `extra` and an exclude of `id`, the key `extra` of `fields_out`
is not a key of `fields`, and `fields_in` (computed before the exclusion)
differs from the inverse of the published `fields_out` restricted to the
constructor parameters. -/
theorem fields_out_subset_counterexample :
    "extra" ∈ ((cfgOfResult (getConfiguration envU 20 (.struct "U") flagsInclude
      initState).1).fieldsOut.map Prod.fst)
    ∧ "extra" ∉ ((cfgOfResult (getConfiguration envU 20 (.struct "U") flagsInclude
      initState).1).fieldsOf.map Prod.fst)
    ∧ (cfgOfResult (getConfiguration envU 20 (.struct "U") flagsInclude
        initState).1).fieldsIn
      ≠ (invertMap (cfgOfResult (getConfiguration envU 20 (.struct "U") flagsInclude
        initState).1).fieldsOut).filter
          (fun p => (envParams envU (.struct "U")).contains p.2) := by
  refine ⟨?_, ?_, ?_⟩
  · show "extra" ∈ ["user_name", "extra"]
    decide
  · show "extra" ∉ ["id", "user_name"]
    decide
  · show [("id", "id"), ("user_name", "user_name")]
      ≠ [("user_name", "user_name")]
    decide

/-- Counterexample to C8 as stated: resolving `Outer` with an exclude of
`x` (a field of the nested type `Inner`, not of `Outer`) stores a
configuration for `Inner` whose output map is empty — the enclosing
exclude leaked into the nested structured type and removed its field `x`,
whereas `Inner` configured on its own keeps `x`. -/
theorem nested_exclude_leak_counterexample :
    gcStoredFieldsOut (⟨.struct "Inner", nestedFieldFlags flagsExcl⟩)
      (getConfiguration envOI 20 (.struct "Outer") flagsExcl initState).2 = []
    ∧ (cfgOfResult (getConfiguration envOI 20 (.struct "Inner") defaultFlags
        initState).1).fieldsOut = [("x", "x")]
    ∧ ([] : List (String × String)) ≠ [("x", "x")] :=
  ⟨rfl, rfl, by decide⟩

/-- The result-cache view is insensitive to stack updates. -/
theorem outerView_stackSet (s : ResolverState) (x : List TypeDesc) :
    outerView { s with stack := x } = outerView s := rfl

/-- The result-cache view is insensitive to a conditional stack update
(modified state in the then-branch). -/
theorem outerView_ifStack (c : Prop) [Decidable c] (s : ResolverState)
    (x : List TypeDesc) :
    outerView (if c then { s with stack := x } else s) = outerView s := by
  split <;> rfl

/-- The result-cache view is insensitive to a conditional stack update
(modified state in the else-branch). -/
theorem outerView_ifStack2 (c : Prop) [Decidable c] (s : ResolverState)
    (x : List TypeDesc) :
    outerView (if c then s else { s with stack := x }) = outerView s := by
  split <;> rfl

/-- The result-cache view is insensitive to configuration-memo updates. -/
theorem outerView_gcSet (s : ResolverState)
    (x : List ((TypeDesc × SerdeFlags) × SerdeConfig)) :
    outerView { s with gcLru := x } = outerView s := rfl

/-- The canonicalisation layer — `Resolver.annotation`,
`Resolver._get_configuration` and its field loop — never touches the
result caches: the `resolve` memo table, the `_resolve_from_annotation`
memo table, the protocol cache and the build counter are unchanged by any
call, raising or not (only the in-flight stack and the
`_get_configuration` memo are mutated). -/
theorem annotation_preserves_outer (fuel : Nat) :
    (∀ env t nm pr io istr fl d ns s,
      outerView (annotationFn env fuel t nm pr io istr fl d ns s).2 = outerView s)
    ∧ (∀ env t fl s,
      outerView (getConfiguration env fuel t fl s).2 = outerView s)
    ∧ (∀ env hints t fl s,
      outerView (configFields env fuel hints t fl s).2 = outerView s) := by
  induction fuel with
  | zero =>
    exact ⟨fun _ _ _ _ _ _ _ _ _ _ => rfl, fun _ _ _ _ => rfl,
      fun _ _ _ _ _ => rfl⟩
  | succ n ih =>
    obtain ⟨ihA, ihG, ihC⟩ := ih
    refine ⟨?_, ?_, ?_⟩
    · intro env t nm pr io istr fl d ns s
      simp only [annotationFn]
      split
      · rfl
      · split
        · rfl
        · split
          · exact outerView_ifStack _ s _
          · split
            · split
              · next e s2 heq =>
                have h1 := ihG env (originOf t)
                  ((serdeFlagsAttr env t).getD (fl.getD defaultFlags))
                  (if t.isStdlib then s else { s with stack := stackAdd t s.stack })
                rw [heq] at h1
                exact h1.trans (outerView_ifStack2 _ s _)
              · next serde s2 heq =>
                have h1 := ihG env (originOf t)
                  ((serdeFlagsAttr env t).getD (fl.getD defaultFlags))
                  (if t.isStdlib then s else { s with stack := stackAdd t s.stack })
                rw [heq] at h1
                exact h1.trans (outerView_ifStack2 _ s _)
            · exact outerView_ifStack2 _ s _
    · intro env t fl s
      simp only [getConfiguration]
      split
      · rfl
      · split
        · next e s1 heq =>
          have h1 := ihC env (envHints env t) t ((serdeFlagsAttr env t).getD fl) s
          rw [heq] at h1
          exact h1
        · next fields0 s1 heq =>
          have h1 := ihC env (envHints env t) t ((serdeFlagsAttr env t).getD fl) s
          rw [heq] at h1
          split
          · exact h1
          · exact (outerView_gcSet s1 _).trans h1
    · intro env hints t fl s
      simp only [configFields]
      match hints with
      | [] => rfl
      | (fname, ftype, fdefault) :: rest =>
        simp only
        split
        · next e s1 heq =>
          have h1 := ihA env ftype none none none none (some (nestedFieldFlags fl))
            fdefault (some t) s
          rw [heq] at h1
          exact h1
        · next a s1 heq =>
          have h1 := ihA env ftype none none none none (some (nestedFieldFlags fl))
            fdefault (some t) s
          rw [heq] at h1
          split
          · next e s2 heq2 =>
            have h2 := ihC env rest t fl s1
            rw [heq2] at h2
            exact h2.trans h1
          · next as s2 heq2 =>
            have h2 := ihC env rest t fl s1
            rw [heq2] at h2
            exact h2.trans h1

/-- C1.  `Resolver.resolve` is memoised on its full argument list: when a
call returns a protocol, calling `resolve` again with the identical
arguments returns the identity-same protocol object (the stored one, same
`buildId` stamp) and leaves the resolver state entirely unchanged — in
particular the build counter does not move, so no protocol-building work is
performed on the second call. -/
theorem resolve_memoized_identity (env : TypeEnv) (fuel : Nat) (t : TypeDesc)
    (fl : Option SerdeFlags) (nm : Option String) (pr : Option Param)
    (io istr : Option Bool) (ns : Option TypeDesc) (des ser : Bool)
    (s : ResolverState) (p : SerdeProtocolT) (s1 : ResolverState)
    (h : resolveFn env fuel t fl nm pr io istr ns des ser s = (.ok p, s1)) :
    resolveFn env fuel t fl nm pr io istr ns des ser s1 = (.ok p, s1) := by
  simp only [resolveFn] at h ⊢
  split at h
  · next p0 heq =>
    injection h with h1 h2
    injection h1 with h1
    subst h2
    subst h1
    rw [heq]
  · next heq =>
    split at h
    · next e s2 ha =>
      exact absurd h (by simp)
    · next a s2 ha =>
      injection h with h1 h2
      injection h1 with h1
      subst h1
      subst h2
      dsimp only
      rw [alookup_dictInsert_self]

/-- Witness for C1: resolving `int` from the fresh state succeeds, and
resolving it again with identical arguments returns the stored protocol
and the unchanged state. -/
theorem resolve_memoized_identity_witness :
    resolveFn [] 5 (.prim "int") none none none none none none true true
        (resolveFn [] 5 (.prim "int") none none none none none none true true
          initState).2
      = (.ok (protoOfResult (resolveFn [] 5 (.prim "int") none none none none none
          none true true initState).1),
         (resolveFn [] 5 (.prim "int") none none none none none none true true
          initState).2) :=
  resolve_memoized_identity [] 5 (.prim "int") none none none none none none true
    true initState
    (protoOfResult (resolveFn [] 5 (.prim "int") none none none none none none true
      true initState).1)
    (resolveFn [] 5 (.prim "int") none none none none none none true true
      initState).2
    (by rfl)

/-- C3 amended.  The in-flight stack is empty after a top-level `resolve`
call that executes its body (memo miss) and returns normally; because the
clear at resolver.py line 578 is not in a try/finally, a raising call does
not clear the stack (see the counterexample), and a memo hit returns
without running the body at all. -/
theorem stack_cleared_on_normal_return (env : TypeEnv) (fuel : Nat) (t : TypeDesc)
    (fl : Option SerdeFlags) (nm : Option String) (pr : Option Param)
    (io istr : Option Bool) (ns : Option TypeDesc) (des ser : Bool)
    (s : ResolverState) (p : SerdeProtocolT) (s1 : ResolverState)
    (hmiss : alookup (⟨t, fl, nm, pr, io, istr, ns, des, ser⟩ : ResolveKey)
      s.resolveLru = none)
    (h : resolveFn env fuel t fl nm pr io istr ns des ser s = (.ok p, s1)) :
    s1.stack = [] := by
  simp only [resolveFn] at h
  split at h
  · next p0 heq =>
    rw [hmiss] at heq
    exact absurd heq (by simp)
  · next heq =>
    split at h
    · exact absurd h (by simp)
    · injection h with h1 h2
      subst h2
      rfl

/-- Witness for C3: a fresh uncached resolution of `str` returns normally
and leaves the stack empty. -/
theorem stack_cleared_on_normal_return_witness :
    (resolveFn [] 5 (.prim "str") none none none none none none true true
      initState).2.stack = [] :=
  stack_cleared_on_normal_return [] 5 (.prim "str") none none none none none none
    true true initState
    (protoOfResult (resolveFn [] 5 (.prim "str") none none none none none none true
      true initState).1)
    (resolveFn [] 5 (.prim "str") none none none none none none true true
      initState).2
    (by rfl) (by rfl)

/-- C4 amended.  A resolution attempt that raises stores nothing in any
result cache: after a raising `resolve` call, the `resolve` memo table, the
`_resolve_from_annotation` memo table, the protocol cache and the build
counter are exactly as before the call.  (The retry is nevertheless not
fully fresh: the raising call can leak the type on the in-flight stack, so
the next call for the same description may return a delayed protocol
instead of repeating the failure — see the counterexample.) -/
theorem failed_resolution_never_cached (env : TypeEnv) (fuel : Nat) (t : TypeDesc)
    (fl : Option SerdeFlags) (nm : Option String) (pr : Option Param)
    (io istr : Option Bool) (ns : Option TypeDesc) (des ser : Bool)
    (s : ResolverState) (e : Err) (s1 : ResolverState)
    (h : resolveFn env fuel t fl nm pr io istr ns des ser s = (.error e, s1)) :
    outerView s1 = outerView s := by
  simp only [resolveFn] at h
  split at h
  · exact absurd h (by simp)
  · next heq =>
    split at h
    · next e2 s2 ha =>
      injection h with h1 h2
      subst h2
      have hp := (annotation_preserves_outer fuel).1 env t nm pr io istr fl .empty
        ns s
      rw [ha] at hp
      exact hp
    · exact absurd h (by simp)

/-- Witness for C4: the raising resolution of `S` (illegal literal field)
leaves the resolve memo, the protocol caches and the build counter exactly
as in the fresh state. -/
theorem failed_resolution_never_cached_witness :
    outerView (resolveFn envBad 20 (.struct "S") none none none none none none true
      true initState).2 = outerView initState :=
  failed_resolution_never_cached envBad 20 (.struct "S") none none none none none
    none true true initState
    (errOfResult (resolveFn envBad 20 (.struct "S") none none none none none none
      true true initState).1)
    (resolveFn envBad 20 (.struct "S") none none none none none none true true
      initState).2
    (by rfl)

/-- Updating a dict with a singleton mapping is a single insertion. -/
theorem dictUpdate_singleton {α β : Type} [DecidableEq α] (d : List (α × β))
    (k : α) (v : β) : dictUpdate d [(k, v)] = dictInsert d k v := rfl

/-- The omission filter only removes entries: its output is a sublist (as a
set) of its input. -/
theorem omitFilterGo_subset (fields : List (String × AnnotationT))
    (tOm : List TypeDesc) (tnOm : List String) :
    ∀ (fo r : List (String × String)),
      omitFilterGo fields tOm tnOm fo = .ok r → r ⊆ fo := by
  intro fo
  induction fo with
  | nil =>
    intro r h
    simp only [omitFilterGo] at h
    injection h with h1
    subst h1
    exact fun _ hx => hx
  | cons hd tl ih =>
    intro r h
    simp only [omitFilterGo] at h
    split at h
    · exact absurd h (by simp)
    · next keep hkeep =>
      split at h
      · exact absurd h (by simp)
      · next kept hkept =>
        injection h with h1
        subst h1
        by_cases hk : keep = true
        · rw [if_pos hk]
          exact List.cons_subset_cons hd (ih kept hkept)
        · rw [if_neg hk]
          exact (ih kept hkept).trans (List.subset_cons_self hd tl)

/-- Transforming only the values of an association list preserves its key
list. -/
theorem map_fst_value_map {α β γ : Type} (g : β → γ) (l : List (α × β)) :
    (l.map (fun p => (p.1, g p.2))).map Prod.fst = l.map Prod.fst := by
  induction l with
  | nil => rfl
  | cons hd tl ih => simp [ih]

/-- Seeding an identity name map preserves the key list. -/
theorem map_fst_seed {α β : Type} (l : List (α × β)) :
    (l.map (fun p => (p.1, p.1))).map Prod.fst = l.map Prod.fst := by
  induction l with
  | nil => rfl
  | cons hd tl ih => simp [ih]

/-- A nonempty list is not `isEmpty`. -/
theorem isEmpty_false_of_ne_nil {α : Type} (l : List α) (h : l ≠ []) :
    l.isEmpty = false := by
  cases l with
  | nil => exact absurd rfl h
  | cons hd tl => rfl

/-- C5 amended.  The field-mapping builder seeds the output name map with
the identity mapping, applies explicit renames next, and applies the case
policy last to every output name, the renamed ones included: a field with
an explicit rename ends up mapped to the case-transformed rename, so the
rename does not escape (is further altered by) case conversion. -/
theorem rename_then_case_applied (env : TypeEnv) (fuel : Nat) (t : TypeDesc)
    (fl : SerdeFlags) (s : ResolverState) (cfg : SerdeConfig) (s1 : ResolverState)
    (f r : String) (c : CaseKind)
    (hattr : serdeFlagsAttr env t = none)
    (hfields : fl.fields = .mapping [(f, r)])
    (hcase : fl.case_ = some c)
    (homit : fl.omit_ = [])
    (hexcl : fl.exclude = [])
    (hmiss : alookup (t, fl) s.gcLru = none)
    (h : getConfiguration env fuel t fl s = (.ok cfg, s1)) :
    alookup f cfg.fieldsOut = some (applyCase c r) := by
  match fuel with
  | 0 => exact absurd h (by simp [getConfiguration])
  | fuel + 1 =>
    simp only [getConfiguration] at h
    split at h
    · next cfg0 heq =>
      rw [hmiss] at heq
      exact absurd heq (by simp)
    · next heq =>
      rw [hattr] at h
      simp only [Option.getD_none] at h
      split at h
      · exact absurd h (by simp)
      · next fields0 s2 hcf =>
        simp only [hfields, hcase, homit, hexcl, FieldsFlag.isTruthy,
          List.isEmpty_nil, Bool.not_true, Bool.not_false, if_true, if_false,
          Bool.false_eq_true, dictUpdate_singleton] at h
        injection h with h1 h2
        injection h1 with h1
        subst h1
        simp only [SerdeConfig.fieldsOut]
        rw [alookup_map_value]
        simp only [List.isEmpty_cons, Bool.not_false, if_true]
        rw [alookup_dictInsert_self]
        rfl

/-- Witness for C5: on the concrete record, the field `user_name` renamed
to `my_field` under the camelCase policy ends up mapped to the
case-transformed name. -/
theorem rename_then_case_applied_witness :
    alookup "user_name" (cfgOfResult (getConfiguration envU 20 (.struct "U")
      flagsRename initState).1).fieldsOut = some (applyCase .camel "my_field") :=
  rename_then_case_applied envU 20 (.struct "U") flagsRename initState
    (cfgOfResult (getConfiguration envU 20 (.struct "U") flagsRename initState).1)
    (getConfiguration envU 20 (.struct "U") flagsRename initState).2
    "user_name" "my_field" .camel rfl rfl rfl rfl rfl rfl (by rfl)



/-- A list whose every element survives the trivial exclusion filter of an
empty exclude set. -/
theorem filter_exclude_nil (l : List (String × String)) :
    l.filter (fun p => !(([] : List String).contains p.1)) = l := by
  induction l with
  | nil => rfl
  | cons hd tl ih => simp [List.filter_cons, ih]

/-- A filtered list is contained in the list it was filtered from. -/
theorem filter_sub {α : Type} (p : α → Bool) (l : List α) : l.filter p ⊆ l :=
  fun _ hx => (List.mem_filter.mp hx).1

/-- The final two steps of the field-mapping builder on the output side:
for ANY exclude set, the published output map keeps its keys inside the
field keys, and equals the pre-exclusion map filtered by the exclude set
(the conditional of resolver.py line 341 collapses to that filter, which is
the identity when the exclude set is empty). -/
theorem outTail_props (F : List (String × AnnotationT))
    (postOmit : List (String × String)) (exclude : List String)
    (hkeys : postOmit.map Prod.fst ⊆ F.map Prod.fst) :
    ((if (!exclude.isEmpty) = true
        then postOmit.filter (fun p => !exclude.contains p.1)
        else postOmit).map Prod.fst ⊆ F.map Prod.fst)
    ∧ (if (!exclude.isEmpty) = true
        then postOmit.filter (fun p => !exclude.contains p.1)
        else postOmit)
      = postOmit.filter (fun p => !exclude.contains p.1) := by
  constructor
  · split
    · exact (List.map_subset Prod.fst (filter_sub _ _)).trans hkeys
    · exact hkeys
  · split
    · rfl
    · next hni =>
      have he : exclude = [] := by
        cases exclude with
        | nil => rfl
        | cons a l => simp at hni
      subst he
      exact (filter_exclude_nil postOmit).symm

/-- C6 amended.  Provided the `fields` flag is unset (an explicit
include/rename list can add names that are not fields), then for ANY flags
— any exclude, case, omit, signature_only — the key set of `fields_out` is
contained in the key set of `fields`; and `fields_in` is the inverse of the
output map AS COMPUTED BEFORE THE EXCLUDE STEP, restricted to the
constructor parameters whenever the constructor has parameters: there is a
pre-exclusion map of which the published `fields_out` is the
exclude-filtered sublist and whose restricted inverse is `fields_in`.
With a nonempty exclude the published maps are therefore NOT mutually
inverse — see the counterexample. -/
theorem fields_out_subset_and_input_inverse (env : TypeEnv) (fuel : Nat)
    (t : TypeDesc) (fl : SerdeFlags) (s : ResolverState) (cfg : SerdeConfig)
    (s1 : ResolverState)
    (hattr : serdeFlagsAttr env t = none)
    (hnoinc : fl.fields.isTruthy = false)
    (hmiss : alookup (t, fl) s.gcLru = none)
    (h : getConfiguration env fuel t fl s = (.ok cfg, s1)) :
    (cfg.fieldsOut.map Prod.fst ⊆ cfg.fieldsOf.map Prod.fst)
    ∧ ∃ preOut,
        cfg.fieldsOut = preOut.filter (fun p => !fl.exclude.contains p.1)
        ∧ (envParams env t ≠ [] →
          cfg.fieldsIn = (invertMap preOut).filter
            (fun p => (envParams env t).contains p.2)) := by
  match fuel with
  | 0 => exact absurd h (by simp [getConfiguration])
  | fuel + 1 =>
    simp only [getConfiguration] at h
    split at h
    · next cfg0 heq =>
      rw [hmiss] at heq
      exact absurd heq (by simp)
    · next heq =>
      rw [hattr] at h
      simp only [Option.getD_none] at h
      split at h
      · exact absurd h (by simp)
      · next fields0 s2 hcf =>
        simp only [hnoinc, Bool.false_eq_true, if_false] at h
        rcases hc : fl.case_ with _ | ccase <;>
          rcases ho : fl.omit_ with _ | ⟨o1, orest⟩
        · simp only [hc, ho, List.isEmpty_nil, Bool.not_true, Bool.false_eq_true,
            if_false] at h
          injection h with h1 h2
          injection h1 with h1
          subst h1
          have hkeys : (List.map (fun p => (p.1, p.1))
                (if fl.signature_only = true
                  then List.filter (fun p => (envParams env t).contains p.1) fields0
                  else fields0)).map Prod.fst
              ⊆ (if fl.signature_only = true
                  then List.filter (fun p => (envParams env t).contains p.1) fields0
                  else fields0).map Prod.fst := by
            rw [map_fst_seed]
            exact fun x hx => hx
          constructor
          · simp only [SerdeConfig.fieldsOut, SerdeConfig.fieldsOf]
            exact (outTail_props _ _ fl.exclude hkeys).1
          · refine ⟨_, (outTail_props _ _ fl.exclude hkeys).2, ?_⟩
            intro hp
            have hpe : (envParams env t).isEmpty = false :=
              isEmpty_false_of_ne_nil _ hp
            simp only [SerdeConfig.fieldsIn, hpe, Bool.not_false, if_true]
        · simp only [hc, ho, List.isEmpty_cons, Bool.not_false, if_true] at h
          split at h
          · exact absurd h (by simp)
          · next postOmit hOmit =>
            injection h with h1 h2
            injection h1 with h1
            subst h1
            have hkeys : postOmit.map Prod.fst
                ⊆ (if fl.signature_only = true
                    then List.filter (fun p => (envParams env t).contains p.1) fields0
                    else fields0).map Prod.fst := by
              refine (List.map_subset Prod.fst
                (omitFilterGo_subset _ _ _ _ _ hOmit)).trans ?_
              rw [map_fst_seed]
              exact fun x hx => hx
            constructor
            · simp only [SerdeConfig.fieldsOut, SerdeConfig.fieldsOf]
              exact (outTail_props _ _ fl.exclude hkeys).1
            · refine ⟨_, (outTail_props _ _ fl.exclude hkeys).2, ?_⟩
              intro hp
              have hpe : (envParams env t).isEmpty = false :=
                isEmpty_false_of_ne_nil _ hp
              simp only [SerdeConfig.fieldsIn, hpe, Bool.not_false, if_true]
        · simp only [hc, ho, List.isEmpty_nil, Bool.not_true, Bool.false_eq_true,
            if_false] at h
          injection h with h1 h2
          injection h1 with h1
          subst h1
          have hkeys : (List.map (fun p => (p.1, applyCase ccase p.2))
                (List.map (fun p => (p.1, p.1))
                  (if fl.signature_only = true
                    then List.filter (fun p => (envParams env t).contains p.1) fields0
                    else fields0))).map Prod.fst
              ⊆ (if fl.signature_only = true
                  then List.filter (fun p => (envParams env t).contains p.1) fields0
                  else fields0).map Prod.fst := by
            rw [map_fst_value_map, map_fst_seed]
            exact fun x hx => hx
          constructor
          · simp only [SerdeConfig.fieldsOut, SerdeConfig.fieldsOf]
            exact (outTail_props _ _ fl.exclude hkeys).1
          · refine ⟨_, (outTail_props _ _ fl.exclude hkeys).2, ?_⟩
            intro hp
            have hpe : (envParams env t).isEmpty = false :=
              isEmpty_false_of_ne_nil _ hp
            simp only [SerdeConfig.fieldsIn, hpe, Bool.not_false, if_true]
        · simp only [hc, ho, List.isEmpty_cons, Bool.not_false, if_true] at h
          split at h
          · exact absurd h (by simp)
          · next postOmit hOmit =>
            injection h with h1 h2
            injection h1 with h1
            subst h1
            have hkeys : postOmit.map Prod.fst
                ⊆ (if fl.signature_only = true
                    then List.filter (fun p => (envParams env t).contains p.1) fields0
                    else fields0).map Prod.fst := by
              refine (List.map_subset Prod.fst
                (omitFilterGo_subset _ _ _ _ _ hOmit)).trans ?_
              rw [map_fst_value_map, map_fst_seed]
              exact fun x hx => hx
            constructor
            · simp only [SerdeConfig.fieldsOut, SerdeConfig.fieldsOf]
              exact (outTail_props _ _ fl.exclude hkeys).1
            · refine ⟨_, (outTail_props _ _ fl.exclude hkeys).2, ?_⟩
              intro hp
              have hpe : (envParams env t).isEmpty = false :=
                isEmpty_false_of_ne_nil _ hp
              simp only [SerdeConfig.fieldsIn, hpe, Bool.not_false, if_true]

/-- Witness for C6: on the concrete record with a NONEMPTY exclude (the
spec example flags: camelCase and exclude of id), the published output keys
stay inside the field keys, and a pre-exclusion map exists whose
exclude-filtered form is the published output map and whose restricted
inverse is the input map. -/
theorem fields_out_subset_and_input_inverse_witness :
    ((cfgOfResult (getConfiguration envU 20 (.struct "U") flagsC9
        initState).1).fieldsOut.map Prod.fst
      ⊆ (cfgOfResult (getConfiguration envU 20 (.struct "U") flagsC9
        initState).1).fieldsOf.map Prod.fst)
    ∧ ∃ preOut,
        (cfgOfResult (getConfiguration envU 20 (.struct "U") flagsC9
          initState).1).fieldsOut
          = preOut.filter (fun p => !flagsC9.exclude.contains p.1)
        ∧ (envParams envU (.struct "U") ≠ [] →
          (cfgOfResult (getConfiguration envU 20 (.struct "U") flagsC9
            initState).1).fieldsIn
            = (invertMap preOut).filter
              (fun p => (envParams envU (.struct "U")).contains p.2)) :=
  fields_out_subset_and_input_inverse envU 20 (.struct "U") flagsC9 initState
    (cfgOfResult (getConfiguration envU 20 (.struct "U") flagsC9 initState).1)
    (getConfiguration envU 20 (.struct "U") flagsC9 initState).2
    rfl rfl rfl (by rfl)

/-- Canonicalising a structured type that IS the enclosing namespace type
(direct self-reference), when it is not on the in-flight stack, returns a
`DelayedAnnotation` with the state untouched (resolver.py lines 443-458). -/
theorem annotationFn_ns_delayed (env : TypeEnv) (fuel : Nat) (n : String)
    (nm : Option String) (pr : Option Param) (io istr : Option Bool)
    (fl : Option SerdeFlags) (d : Default) (s : ResolverState)
    (hnot : TypeDesc.struct n ∉ s.stack) :
    annotationFn env (fuel + 1) (.struct n) nm pr io istr fl d
        (some (.struct n)) s
      = (.ok (.delayed (.struct n) nm
          (pr.getD (builtParam nm (.struct n) d))
          (builtOptional io (.struct n) (pr.getD (builtParam nm (.struct n) d)))
          (istr.getD false)
          ((serdeFlagsAttr env (.struct n)).getD (fl.getD defaultFlags)) d), s) := by
  simp only [annotationFn]
  rw [if_neg (by simp [TypeDesc.isLiteralT])]
  rw [if_pos (Or.inl trivial)]
  rw [if_neg hnot]
  exact rfl

/-- Canonicalising a structured type already on the in-flight stack returns
a `DelayedAnnotation` and removes the type from the stack (resolver.py
lines 443-458). -/
theorem annotationFn_stack_delayed (env : TypeEnv) (fuel : Nat) (n : String)
    (nm : Option String) (pr : Option Param) (io istr : Option Bool)
    (fl : Option SerdeFlags) (d : Default) (s : ResolverState)
    (hmem : TypeDesc.struct n ∈ s.stack) :
    annotationFn env (fuel + 1) (.struct n) nm pr io istr fl d none s
      = (.ok (.delayed (.struct n) nm
          (pr.getD (builtParam nm (.struct n) d))
          (builtOptional io (.struct n) (pr.getD (builtParam nm (.struct n) d)))
          (istr.getD false)
          ((serdeFlagsAttr env (.struct n)).getD (fl.getD defaultFlags)) d),
         { s with stack := s.stack.erase (.struct n) }) := by
  simp only [annotationFn]
  rw [if_neg (by simp [TypeDesc.isLiteralT])]
  rw [if_pos (Or.inr hmem)]
  rw [if_pos hmem]
  exact rfl

/-- C7.  Recursion detection: canonicalising a structured type that is the
enclosing namespace type (direct self-reference) yields a
`DelayedAnnotation` with the stack untouched; canonicalising a type already
on the in-flight stack yields a `DelayedAnnotation` and removes the type
from the stack; and a `resolve` whose canonicalisation yields the delayed
annotation returns a `DelayedSerdeProtocol` instead of a concrete
protocol. -/
theorem delayed_annotation_on_recursion (env : TypeEnv) (fuel : Nat) (n : String)
    (nm : Option String) (pr : Option Param) (io istr : Option Bool)
    (fl : Option SerdeFlags) (d : Default) (s : ResolverState) :
    ((TypeDesc.struct n ∉ s.stack) →
      ∃ P O ST FL, annotationFn env (fuel + 1) (.struct n) nm pr io istr fl d
          (some (.struct n)) s
        = (.ok (.delayed (.struct n) nm P O ST FL d), s))
    ∧ ((TypeDesc.struct n ∈ s.stack) →
      ∃ P O ST FL, annotationFn env (fuel + 1) (.struct n) nm pr io istr fl d none s
        = (.ok (.delayed (.struct n) nm P O ST FL d),
           { s with stack := s.stack.erase (.struct n) }))
    ∧ (s.rfaLru = [] → s.cache = [] →
      alookup (⟨.struct n, fl, nm, pr, io, istr, none, true, true⟩ : ResolveKey)
        s.resolveLru = none →
      TypeDesc.struct n ∈ s.stack →
      isOkDelayedProto
        (resolveFn env (fuel + 1) (.struct n) fl nm pr io istr none true true s).1
        = true
      ∧ (resolveFn env (fuel + 1) (.struct n) fl nm pr io istr none true true
          s).2.stack = []) := by
  refine ⟨fun hnot =>
      ⟨_, _, _, _, annotationFn_ns_delayed env fuel n nm pr io istr fl d s hnot⟩,
    fun hmem =>
      ⟨_, _, _, _, annotationFn_stack_delayed env fuel n nm pr io istr fl d s hmem⟩,
    ?_⟩
  intro hrfa hcache hmiss hmem
  have ha := annotationFn_stack_delayed env fuel n nm pr io istr fl .empty s hmem
  constructor
  · simp only [resolveFn, hmiss]
    rw [ha]
    simp only [resolveFromAnnotationFn, hrfa, hcache, blookup]
    rfl
  · simp only [resolveFn, hmiss]
    rw [ha]

/-- Witness for C7: with the self-referential type `Node`, the
namespace-detected and stack-detected cases both yield a
`DelayedAnnotation` (removing the type from the stack in the latter case),
and `resolve` on the stack-detected case returns a
`DelayedSerdeProtocol`. -/
theorem delayed_annotation_on_recursion_witness :
    (∃ P O ST FL, annotationFn [] 5 (.struct "Node") none none none none none .empty
        (some (.struct "Node")) initState
      = (.ok (.delayed (.struct "Node") none P O ST FL .empty), initState))
    ∧ (∃ P O ST FL, annotationFn [] 5 (.struct "Node") none none none none none
        .empty none { initState with stack := [.struct "Node"] }
      = (.ok (.delayed (.struct "Node") none P O ST FL .empty), initState))
    ∧ (isOkDelayedProto (resolveFn [] 5 (.struct "Node") none none none none none
        none true true { initState with stack := [.struct "Node"] }).1 = true
      ∧ (resolveFn [] 5 (.struct "Node") none none none none none none true true
          { initState with stack := [.struct "Node"] }).2.stack = []) :=
  ⟨(delayed_annotation_on_recursion [] 4 "Node" none none none none none .empty
      initState).1 (by decide),
   (delayed_annotation_on_recursion [] 4 "Node" none none none none none .empty
      { initState with stack := [.struct "Node"] }).2.1 (by decide),
   (delayed_annotation_on_recursion [] 4 "Node" none none none none none .empty
      { initState with stack := [.struct "Node"] }).2.2 rfl rfl rfl (by decide)⟩

/-- C8 amended.  The flags passed to nested field canonicalisation reset
ONLY the explicit include/rename map (`dataclasses.replace(flags,
fields=\x7b\x7d)`): the `exclude` (and case/omit) members pass through and DO
affect the field projection of nested structured types that carry no flag
block of their own.  Concretely, for any exclude set containing the nested
field name `x`, resolving `Outer` stores a configuration for `Inner` keyed
by the reset flags (empty `fields`, same `exclude`) whose output map has
lost `x`. -/
theorem nested_flags_reset_only_fields (E : List String) (fuel : Nat)
    (hx : "x" ∈ E) :
    ∃ cfg,
      alookup (TypeDesc.struct "Inner",
          nestedFieldFlags ⟨.noFields, E, none, [], false⟩)
        ((getConfiguration envOI (fuel + 8) (.struct "Outer")
          ⟨.noFields, E, none, [], false⟩ initState).2).gcLru
      = some cfg
      ∧ cfg.fieldsOut = [] ∧ cfg.flagsOf.exclude = E := by
  have hE1 : E.isEmpty = false :=
    isEmpty_false_of_ne_nil E (List.ne_nil_of_mem hx)
  have hE2 : E.contains "x" = true := List.elem_eq_true_of_mem hx
  refine ⟨SerdeConfig.mk ⟨.mapping [], E, none, [], false⟩
    [("x", .anno (.prim "int") (.prim "int") (.prim "int")
      ⟨"_", some (.prim "int"), .empty⟩ false false true
      (SerdeConfig.mk ⟨.mapping [], E, none, [], false⟩ [] [] [] [] []))]
    [] [("x", "x")] ["x"] [], ?_, rfl, rfl⟩
  simp [getConfiguration, configFields, annotationFn, nestedFieldFlags,
    serdeFlagsAttr, envLookup, envParams, envHints, envOI, alookup, dictInsert,
    dictUpdate, invertMap, omitFilter, omitFilterGo, omitValueEntries,
    omitTypeEntries, emptySerdeConfig, stackAdd, originOf, dynamicOrigin,
    isOptionalType, TypeDesc.isLiteralT, TypeDesc.isStdlib, litArgs,
    legalLiteral, isHashable, FieldsFlag.isTruthy, applyCase, hE1, hE2,
    SerdeConfig.fieldsOut, SerdeConfig.flagsOf, initState]
  exact hx

/-- Witness for C8: with the concrete exclude set containing exactly `x`,
resolving `Outer` stores an `Inner` configuration keyed by the reset flags
whose output map is empty. -/
theorem nested_flags_reset_only_fields_witness :
    ∃ cfg,
      alookup (TypeDesc.struct "Inner",
          nestedFieldFlags ⟨.noFields, ["x"], none, [], false⟩)
        ((getConfiguration envOI 12 (.struct "Outer")
          ⟨.noFields, ["x"], none, [], false⟩ initState).2).gcLru
      = some cfg
      ∧ cfg.fieldsOut = [] ∧ cfg.flagsOf.exclude = ["x"] :=
  nested_flags_reset_only_fields ["x"] 4 (by decide)
